import Mathlib

/-!
Verification development for the Eliza Town orchestration engine.

This file gives a shallow embedding of the orchestration core of the
repository: the per-agent state machine (src/orchestration/state.js), the
tick-driven orchestration loop (src/orchestration/loop.js), the reply
parsers (src/agents/claude.js and the orchestrator-local one), the
movement step (src/utils/pathfinding.js) and the task API routes
(src/api/routes.js).  External collaborators (the database, the reasoning
call, JSON parsing of free text, websocket emission and file packaging)
are abstracted by oracles; every state mutation performed by the source is
reproduced on an explicit world state.
-/

namespace ElizaTown

/-! ## Agent state machine (state.js) -/

/-- Statuses of an agent, from the AgentStatus enumeration in state.js. -/
inductive AgentStatus
  | idle
  | traveling
  | working
  | chatting
  | waiting
  | blocked
  deriving DecidableEq, Repr, Fintype

/-- Events of the agent state machine, from the AgentEvents enumeration in
state.js. -/
inductive AgentEvent
  | assign_task
  | start_travel
  | arrive
  | start_work
  | complete_work
  | request_chat
  | end_chat
  | block
  | unblock
  deriving DecidableEq, Repr, Fintype

/-- Valid state transitions: the `transitions` table of state.js, read as a
partial function from current status and event to the next status.
`canTransition` in state.js looks up exactly this table. -/
def canTransition : AgentStatus → AgentEvent → Option AgentStatus
  | .idle, .assign_task => some .traveling
  | .idle, .start_travel => some .traveling
  | .idle, .request_chat => some .chatting
  | .traveling, .arrive => some .idle
  | .working, .complete_work => some .idle
  | .working, .request_chat => some .chatting
  | .working, .block => some .blocked
  | .chatting, .end_chat => some .idle
  | .waiting, .unblock => some .working
  | .blocked, .unblock => some .working
  | _, _ => none

/-- Payload of a transition call, mirroring the optional payload fields read
by the switch in AgentState.transition. -/
structure Payload where
  taskId : Option Nat := none
  subtaskId : Option Nat := none
  hub : Option String := none
  position : Option (ℚ × ℚ) := none
  doing : Option String := none
  withAgent : Option Nat := none
  deriving DecidableEq, Repr

/-- In-memory state of one agent as held by the AgentState class of
state.js (status plus the fields the transition switch mutates). -/
structure MachineState where
  status : AgentStatus
  currentHub : Option String
  targetHub : Option String
  currentTask : Option Nat
  currentSubtask : Option Nat
  pos : ℚ × ℚ
  doing : Option String
  chattingWith : Option Nat
  deriving DecidableEq, Repr

/-- Field updates performed by the switch statement of
AgentState.transition for each event (the status change itself is applied
separately, as in the source). -/
def applyEventFields (s : MachineState) (e : AgentEvent) (p : Payload) : MachineState :=
  match e with
  | .assign_task =>
      { s with currentTask := p.taskId, currentSubtask := p.subtaskId, targetHub := p.hub }
  | .start_travel => { s with targetHub := p.hub }
  | .arrive =>
      { s with currentHub := s.targetHub, targetHub := none, pos := p.position.getD s.pos }
  | .start_work => { s with doing := p.doing }
  | .complete_work => { s with currentSubtask := none, doing := none }
  | .request_chat => { s with chattingWith := p.withAgent }
  | .end_chat => { s with chattingWith := none }
  | .block => s
  | .unblock => s

/-- AgentState.transition of state.js: an invalid transition returns false
and leaves the state untouched; a valid one installs the new status and
applies the per-event field updates. -/
def transition (s : MachineState) (e : AgentEvent) (p : Payload) : Bool × MachineState :=
  match canTransition s.status e with
  | none => (false, s)
  | some newStatus => (true, { applyEventFields s e p with status := newStatus })

/-- Modelled from the spec: the transition table of section 4.2, written
down row by row exactly as the spec lists it (from-status, event,
to-status).  It is compared against `canTransition`, which comes from the
source. -/
def specTransitionTable : List (AgentStatus × AgentEvent × AgentStatus) :=
  [ (.idle, .assign_task, .traveling)
  , (.idle, .start_travel, .traveling)
  , (.idle, .request_chat, .chatting)
  , (.traveling, .arrive, .idle)
  , (.working, .complete_work, .idle)
  , (.working, .request_chat, .chatting)
  , (.working, .block, .blocked)
  , (.chatting, .end_chat, .idle)
  , (.waiting, .unblock, .working)
  , (.blocked, .unblock, .working) ]

/-! ## World state: the database rows the orchestration loop mutates -/

/-- Statuses of a task (tasks.status column and the strings written by
loop.js and routes.js). -/
inductive TaskStatus
  | pending
  | planning
  | in_progress
  | completed
  | failed
  | cancelled
  deriving DecidableEq, Repr

/-- Statuses of a subtask (subtasks.status column and the strings written
by loop.js). -/
inductive SubtaskStatus
  | pending
  | assigned
  | in_progress
  | completed
  | failed
  deriving DecidableEq, Repr

/-- One row of the agents table: the columns loop.js reads and writes. -/
structure AgentRow where
  id : Nat
  type : String
  status : AgentStatus
  currentHub : Option String
  targetHub : Option String
  doing : Option String
  pos : ℚ × ℚ
  deriving DecidableEq, Repr

/-- One row of the tasks table: the columns loop.js and routes.js read and
write (timestamps other than the creation order are omitted, they are
never branched on). -/
structure TaskRow where
  id : Nat
  prompt : String
  status : TaskStatus
  createdAt : Nat
  deriving DecidableEq, Repr

/-- One row of the subtasks table. -/
structure SubtaskRow where
  id : Nat
  taskId : Nat
  agentId : Nat
  agentType : String
  description : String
  hubId : String
  sequence : Nat
  status : SubtaskStatus
  output : Option String
  deriving DecidableEq, Repr

/-- One row of the messages table.  `readAt` is true when the read_at
column is non-null, i.e. the message has been delivered. -/
structure MessageRow where
  id : Nat
  taskId : Nat
  fromAgentId : Nat
  toAgentId : Nat
  content : String
  hubId : String
  readAt : Bool
  createdAt : Nat
  deriving DecidableEq, Repr

/-- One row of the hubs table (position is all the loop reads). -/
structure HubRow where
  id : String
  pos : ℚ × ℚ
  deriving DecidableEq, Repr

/-- The mutable shared state: all database rows the orchestration core
touches.  `nextMessageId` models the serial id handed out by the next
message insert. -/
structure World where
  tasks : List TaskRow
  subtasks : List SubtaskRow
  agents : List AgentRow
  messages : List MessageRow
  hubs : List HubRow
  nextMessageId : Nat
  deriving DecidableEq, Repr

/-- Websocket notifications relevant to the claims (emit calls in loop.js).
Only the move event carries proof obligations, so the payloads of the
others are reduced to their identifying data. -/
inductive Event
  | agentMove (agentType : String) (hub : String)
  | agentArrived (agentType : String) (hub : String)
  deriving DecidableEq, Repr

/-- Structured reply record expected from the reasoning call (the optional
fields listed in the prompt template of prompts.js and read by loop.js).
File payloads are only forwarded to the external file store, which holds
no orchestration state, so they are not carried here. -/
structure AgentResp where
  thinking : Option String := none
  saying : Option String := none
  doing : Option String := none
  toAgent : Option String := none
  output : Option String := none
  needsHelp : Option String := none
  helpTopic : Option String := none
  deriving DecidableEq, Repr

/-- Oracle for the external collaborators of one tick: the reasoning call
keyed by subtask id (`none` models a thrown error), the JSON parse of a
free-text reply (`none` models a parse failure), and success of the
reasoning call made for a delivered message, keyed by message id. -/
structure Oracle where
  callResult : Nat → Option String
  jsonParse : String → Option AgentResp
  chatCallOk : Nat → Bool

/-! Row lookup and update helpers (SELECT by id, UPDATE WHERE id). -/

/-- SELECT * FROM agents WHERE id = the given id (first match). -/
def findAgent (w : World) (aid : Nat) : Option AgentRow :=
  w.agents.find? (fun a => a.id == aid)

/-- SELECT * FROM agents WHERE type = the given type (first match), as in
Orchestrator.getAgentByType. -/
def getAgentByType (w : World) (t : String) : Option AgentRow :=
  w.agents.find? (fun a => a.type == t)

/-- SELECT * FROM hubs WHERE id = the given id. -/
def findHub (w : World) (h : String) : Option HubRow :=
  w.hubs.find? (fun x => x.id == h)

/-- UPDATE agents SET ... WHERE id = aid. -/
def updateAgent (w : World) (aid : Nat) (f : AgentRow → AgentRow) : World :=
  { w with agents := w.agents.map (fun a => if a.id == aid then f a else a) }

/-- UPDATE tasks SET ... WHERE id = tid. -/
def updateTask (w : World) (tid : Nat) (f : TaskRow → TaskRow) : World :=
  { w with tasks := w.tasks.map (fun t => if t.id == tid then f t else t) }

/-- UPDATE subtasks SET ... WHERE id = sid. -/
def updateSubtask (w : World) (sid : Nat) (f : SubtaskRow → SubtaskRow) : World :=
  { w with subtasks := w.subtasks.map (fun s => if s.id == sid then f s else s) }

/-- UPDATE messages SET ... WHERE id = mid. -/
def updateMessage (w : World) (mid : Nat) (f : MessageRow → MessageRow) : World :=
  { w with messages := w.messages.map (fun m => if m.id == mid then f m else m) }

/-- Status of the first task row with the given id, for stating theorems. -/
def taskStatus (w : World) (tid : Nat) : Option TaskStatus :=
  (w.tasks.find? (fun t => t.id == tid)).map (fun t => t.status)

/-- Status of the first subtask row with the given id. -/
def subtaskStatus (w : World) (sid : Nat) : Option SubtaskStatus :=
  (w.subtasks.find? (fun s => s.id == sid)).map (fun s => s.status)

/-- Output of the first subtask row with the given id. -/
def subtaskOutput (w : World) (sid : Nat) : Option (Option String) :=
  (w.subtasks.find? (fun s => s.id == sid)).map (fun s => s.output)

/-- Read flag of the first message row with the given id. -/
def messageRead (w : World) (mid : Nat) : Option Bool :=
  (w.messages.find? (fun m => m.id == mid)).map (fun m => m.readAt)

/-- Status of the first agent row with the given id. -/
def agentStatus (w : World) (aid : Nat) : Option AgentStatus :=
  (w.agents.find? (fun a => a.id == aid)).map (fun a => a.status)

/-! ## Orchestrator operations (loop.js) -/

/-- Orchestrator.assignAgentToHub: a no-op when the agent already occupies
the hub, otherwise sets target_hub and status traveling and emits a move
event.  A missing agent id makes the source throw before any write, so no
state change is modelled for it. -/
def assignAgentToHub (w : World) (agentId : Nat) (hubId : String) : World × List Event :=
  match findAgent w agentId with
  | none => (w, [])
  | some a =>
    if a.currentHub == some hubId then (w, [])
    else
      (updateAgent w agentId (fun b => { b with targetHub := some hubId, status := .traveling }),
       [Event.agentMove a.type hubId])

/-- Count of subtask rows of a task whose status differs from completed
(the aggregate query of Orchestrator.checkTaskCompletion). -/
def pendingCount (w : World) (tid : Nat) : Nat :=
  (w.subtasks.filter (fun s => s.taskId == tid && s.status != SubtaskStatus.completed)).length

/-- Orchestrator.celebrateCompletion: every agent is sent to the town
square (the staggered utterances touch no orchestration state). -/
def celebrateCompletion (w : World) : World :=
  (w.agents.map (fun a => a.id)).foldl (fun acc aid => (assignAgentToHub acc aid "town_square").1) w

/-- Orchestrator.checkTaskCompletion: when no subtask of the task is
outstanding, the task row is set to completed (with no guard on its
current status) and the celebration recalls all agents.  packageResult is
external and only produces the artifact locators. -/
def checkTaskCompletion (w : World) (tid : Nat) : World :=
  if pendingCount w tid = 0 then
    celebrateCompletion (updateTask w tid (fun t => { t with status := .completed }))
  else w

/-- Orchestrator.requestAgentHelp: insert a message bound to the town
square and send both agents there.  A missing recipient type makes the
source throw before the insert; no state change is modelled for it. -/
def requestAgentHelp (w : World) (fromAgent : AgentRow) (toAgentType : String)
    (topic : String) (tid : Nat) : World :=
  match getAgentByType w toAgentType with
  | none => w
  | some toAgent =>
    let w1 : World :=
      { w with
        messages := w.messages ++
          [{ id := w.nextMessageId, taskId := tid, fromAgentId := fromAgent.id,
             toAgentId := toAgent.id, content := topic, hubId := "town_square",
             readAt := false, createdAt := w.nextMessageId }],
        nextMessageId := w.nextMessageId + 1 }
    let w2 := (assignAgentToHub w1 fromAgent.id "town_square").1
    (assignAgentToHub w2 toAgent.id "town_square").1

/-- Orchestrator.parseAgentResponse: JSON.parse the reply; on a parse
failure fall back to a record holding the whole raw reply as output. -/
def parseAgentResponse (jp : String → Option AgentResp) (response : String) : AgentResp :=
  match jp response with
  | some parsed => parsed
  | none => { output := some response }

/-- The JS expression `parsed.output || response`: a missing or falsy
(empty) output field falls back to the raw reply. -/
def outputOrRaw (parsedOutput : Option String) (response : String) : String :=
  match parsedOutput with
  | some s => if s = "" then response else s
  | none => response

/-- Opening writes of Orchestrator.executeSubtask: the subtask row goes to
in_progress and the agent row to working with the truncated description as
its doing label. -/
def startSubtask (w : World) (st : SubtaskRow) : World :=
  updateAgent (updateSubtask w st.id (fun s => { s with status := .in_progress })) st.agentId
    (fun a => { a with status := .working, doing := some (st.description.take 50) })

/-- Closing write of Orchestrator.executeSubtask: the agent row returns to
idle with its doing label cleared (this runs after the try block on both
outcomes). -/
def finishAgent (w : World) (st : SubtaskRow) : World :=
  updateAgent w st.agentId (fun a => { a with status := .idle, doing := none })

/-- Body of the try block of Orchestrator.executeSubtask when the
reasoning call returned a reply: parse it, complete the subtask with the
parsed or raw output, enqueue a help message when requested, and run the
completion check.  File outputs go to the external file store only. -/
def successBody (o : Oracle) (w : World) (st : SubtaskRow) (response : String) : World :=
  let parsed := parseAgentResponse o.jsonParse response
  let w3 := updateSubtask w st.id
      (fun s => { s with status := .completed, output := some (outputOrRaw parsed.output response) })
  let w4 :=
    match parsed.needsHelp with
    | some helpType =>
        match findAgent w3 st.agentId with
        | some a => requestAgentHelp w3 a helpType (parsed.helpTopic.getD "") st.taskId
        | none => w3
    | none => w3
  checkTaskCompletion w4 st.taskId

/-- Orchestrator.executeSubtask.  The subtask goes to in_progress and its
agent to working; then the reasoning call either returns a reply (handled
by `successBody`) or throws (the subtask is marked failed).  Either way
the agent is reset to idle afterwards. -/
def executeSubtask (o : Oracle) (w : World) (st : SubtaskRow) : World :=
  let w2 := startSubtask w st
  match o.callResult st.id with
  | some response => finishAgent (successBody o w2 st response) st
  | none => finishAgent (updateSubtask w2 st.id (fun s => { s with status := .failed })) st

/-- Dispatch precondition of the work-dispatch query in
Orchestrator.processSubtasks: the subtask row is assigned and the joined
agent row is idle at the subtask hub.  No other row is consulted. -/
def subtaskReady (w : World) (s : SubtaskRow) : Bool :=
  s.status == SubtaskStatus.assigned &&
  match findAgent w s.agentId with
  | some a => a.status == AgentStatus.idle && a.currentHub == some s.hubId
  | none => false

/-- Comparison used by ORDER BY s.sequence. -/
def seqLE (s t : SubtaskRow) : Prop := s.sequence ≤ t.sequence

instance : DecidableRel seqLE := fun s t => Nat.decLe s.sequence t.sequence

instance : IsTotal SubtaskRow seqLE := ⟨fun s t => Nat.le_total s.sequence t.sequence⟩

instance : IsTrans SubtaskRow seqLE := ⟨fun _ _ _ h1 h2 => Nat.le_trans h1 h2⟩

/-- The batch fetched by the work-dispatch query: ready subtasks ordered by
sequence. -/
def readySubtasks (w : World) : List SubtaskRow :=
  (w.subtasks.filter (subtaskReady w)).insertionSort seqLE

/-- Orchestrator.processSubtasks: execute every row of the fetched batch in
order (the batch is a snapshot taken before the first execution, as in the
source). -/
def processSubtasks (o : Oracle) (w : World) : World :=
  (readySubtasks w).foldl (executeSubtask o) w

/-- Comparison used by ORDER BY created_at on tasks. -/
def createdLE (s t : TaskRow) : Prop := s.createdAt ≤ t.createdAt

instance : DecidableRel createdLE := fun s t => Nat.decLe s.createdAt t.createdAt

instance : IsTotal TaskRow createdLE := ⟨fun s t => Nat.le_total s.createdAt t.createdAt⟩

instance : IsTrans TaskRow createdLE := ⟨fun _ _ _ h1 h2 => Nat.le_trans h1 h2⟩

/-- Orchestrator.processPendingTasks: the oldest five pending tasks move to
planning and the planner is sent to the planning room.  The in-memory
active-task map is bookkeeping with no claim-bearing state. -/
def processPendingTasks (w : World) : World :=
  (((w.tasks.filter (fun t => t.status == TaskStatus.pending)).insertionSort createdLE).take 5).foldl
    (fun acc t =>
      let acc1 := updateTask acc t.id (fun x => { x with status := .planning })
      match getAgentByType acc1 "planner" with
      | some planner => (assignAgentToHub acc1 planner.id "planning_room").1
      | none => acc1)
    w

/-- Oracle for the numeric movement of one tick: whether moveAgentToHub
reported arrival for an agent, and the interpolated position it wrote
otherwise.  The numeric step itself is modelled in the movement section
below over the reals. -/
structure MoveOracle where
  arrives : Nat → Bool
  newPos : Nat → ℚ × ℚ

/-- Orchestrator.updateAgentPositions: every traveling agent with a target
hub either arrives (current_hub takes the target, the target clears, the
status returns to idle and the position snaps to the hub position) or
keeps moving (only the position changes). -/
def updateAgentPositions (mo : MoveOracle) (w : World) : World :=
  (w.agents.filter (fun a => a.targetHub.isSome && a.status == AgentStatus.traveling)).foldl
    (fun acc a =>
      match a.targetHub with
      | none => acc
      | some h =>
        if mo.arrives a.id then
          updateAgent acc a.id (fun b =>
            { b with currentHub := some h, targetHub := none, status := .idle,
                     pos := ((findHub acc h).map (fun x => x.pos)).getD b.pos })
        else
          updateAgent acc a.id (fun b => { b with pos := mo.newPos a.id }))
    w

/-- Readiness condition of the message-delivery query in
Orchestrator.processMessages: the message is unread and both joined agent
rows currently record the town square as their hub.  Neither the agent
status nor the message hub column is consulted. -/
def messageReady (w : World) (m : MessageRow) : Bool :=
  !m.readAt &&
  (match findAgent w m.fromAgentId with
   | some fa => fa.currentHub == some "town_square"
   | none => false) &&
  (match findAgent w m.toAgentId with
   | some ta => ta.currentHub == some "town_square"
   | none => false)

/-- Comparison used by ORDER BY m.created_at. -/
def msgLE (s t : MessageRow) : Prop := s.createdAt ≤ t.createdAt

instance : DecidableRel msgLE := fun s t => Nat.decLe s.createdAt t.createdAt

instance : IsTotal MessageRow msgLE := ⟨fun s t => Nat.le_total s.createdAt t.createdAt⟩

instance : IsTrans MessageRow msgLE := ⟨fun _ _ _ h1 h2 => Nat.le_trans h1 h2⟩

/-- The batch fetched by the message-delivery query. -/
def readyMessages (w : World) : List MessageRow :=
  (w.messages.filter (messageReady w)).insertionSort msgLE

/-- Delivery loop of Orchestrator.processMessages: each batch message is
marked read, then the recipient reasoning call runs; a throw of that call
is uncaught, so it aborts the rest of the batch (the flag records the
escaped exception).  The generated reply is only broadcast. -/
def deliverLoop (o : Oracle) : List MessageRow → World → World × Bool
  | [], w => (w, false)
  | m :: rest, w =>
      let w1 := updateMessage w m.id (fun mm => { mm with readAt := true })
      if o.chatCallOk m.id then deliverLoop o rest w1 else (w1, true)

/-- Orchestrator.processMessages. -/
def processMessages (o : Oracle) (w : World) : World × Bool :=
  deliverLoop o (readyMessages w) w

/-! ## API routes (routes.js) -/

/-- POST /api/tasks: insert a pending task row. -/
def createTask (w : World) (tid : Nat) (prompt : String) (now : Nat) : World :=
  { w with tasks := w.tasks ++ [{ id := tid, prompt := prompt, status := .pending, createdAt := now }] }

/-- POST /api/tasks/:id/cancel: set status cancelled on the task row unless
it is already completed or cancelled (the WHERE clause excludes exactly
those two statuses). -/
def cancelTask (w : World) (tid : Nat) : World :=
  updateTask w tid (fun t =>
    if t.status != TaskStatus.completed && t.status != TaskStatus.cancelled then
      { t with status := .cancelled }
    else t)

/-! ## Task decomposition (Orchestrator.planTask) -/

/-- One entry of the parsed planner reply. -/
structure PlanEntry where
  agent : String
  description : String
  deriving DecidableEq, Repr

/-- One subtask row inserted by Orchestrator.planTask for the entry at
the given index: sequence equal to the index, the first agent of the
entry role, the role home hub falling back to the town square, and the
database default status pending. -/
def planRow (tid baseId : Nat) (hubOf : String → Option String) (i : Nat) (e : PlanEntry)
    (ag : AgentRow) : SubtaskRow :=
  { id := baseId + i, taskId := tid, agentId := ag.id, agentType := e.agent,
    description := e.description, hubId := (hubOf e.agent).getD "town_square",
    sequence := i, status := .pending, output := none }

/-- Loop body of Orchestrator.planTask: one subtask row inserted per
entry, with the entry agent sent to the row hub.  A missing role makes
the source throw, ending the loop with the rows inserted so far kept (the
flag records the escaped exception). -/
def planTaskLoop (tid : Nat) (hubOf : String → Option String) (baseId : Nat) :
    List (Nat × PlanEntry) → World → World × Bool
  | [], w => (w, false)
  | (i, e) :: rest, w =>
    match getAgentByType w e.agent with
    | none => (w, true)
    | some ag =>
      let hub := (hubOf e.agent).getD "town_square"
      let w1 : World := { w with subtasks := w.subtasks ++ [planRow tid baseId hubOf i e ag] }
      planTaskLoop tid hubOf baseId rest (assignAgentToHub w1 ag.id hub).1

/-- Orchestrator.planTask: insert one subtask per planner entry (database
default status pending, sequence = index) and finally set the task to
in_progress; an escaped exception skips that final update. -/
def planTask (w : World) (tid : Nat) (entries : List PlanEntry) (baseId : Nat)
    (hubOf : String → Option String) : World :=
  match planTaskLoop tid hubOf baseId entries.enum w with
  | (w1, false) => updateTask w1 tid (fun t => { t with status := .in_progress })
  | (w1, true) => w1

/-! ## The tick (Orchestrator.tick) -/

/-- Control-flow skeleton of Orchestrator.tick: the four phases run in
order inside one shared try block, so the first phase that throws ends the
body (keeping the state the throwing phase left behind), and the next tick
is scheduled unconditionally after the catch.  Each phase maps a state to
the state it leaves plus a thrown flag.  The result records the final
state, the zero-based indices of the phases that were started, and whether
the next tick was scheduled. -/
def tickModel {σ : Type} (p1 p2 p3 p4 : σ → σ × Bool) (s : σ) : σ × List Nat × Bool :=
  let r1 := p1 s
  if r1.2 then (r1.1, [0], true) else
  let r2 := p2 r1.1
  if r2.2 then (r2.1, [0, 1], true) else
  let r3 := p3 r2.1
  if r3.2 then (r3.1, [0, 1, 2], true) else
  let r4 := p4 r3.1
  (r4.1, [0, 1, 2, 3], true)

/-! ## Numeric movement (pathfinding.js), over the reals -/

/-- A continuous 2D position, as used by pathfinding.js. -/
structure Pt where
  x : ℝ
  y : ℝ

/-- The distance function of pathfinding.js. -/
noncomputable def distanceR (p q : Pt) : ℝ :=
  Real.sqrt ((q.x - p.x) ^ 2 + (q.y - p.y) ^ 2)

/-- The lerp function of pathfinding.js. -/
def lerpR (a b t : ℝ) : ℝ := a + (b - a) * t

/-- The lerpPoint function of pathfinding.js, restricted to the plane the
movement code uses. -/
def lerpPointR (p q : Pt) (t : ℝ) : Pt := ⟨lerpR p.x q.x t, lerpR p.y q.y t⟩

/-- moveAgentToHub of pathfinding.js: below the fixed arrival threshold 0.1
the step reports arrival and writes nothing; otherwise the position is
interpolated toward the hub by t = min(speed * deltaTime / dist, 1) and
the step reports that the agent is still moving. -/
noncomputable def moveAgentToHub (pos hub : Pt) (speed deltaTime : ℝ) : Bool × Pt :=
  let dist := distanceR pos hub
  if dist < 0.1 then (true, pos)
  else
    let moveDistance := speed * deltaTime
    let t := min (moveDistance / dist) 1
    (false, lerpPointR pos hub t)

/-! ## Helper lemmas -/

/-- Finding by key commutes with a key-preserving map. -/
theorem find?_map_of_key {α : Type} (key : α → Nat) (h : α → α)
    (hk : ∀ a, key (h a) = key a) (l : List α) (m : Nat) :
    (l.map h).find? (fun a => key a == m) = (l.find? (fun a => key a == m)).map h := by
  induction l with
  | nil => rfl
  | cons a l ih =>
    by_cases hb : (key a == m) = true
    · rw [List.map_cons,
        @List.find?_cons_of_pos _ (fun x => key x == m) (h a) (l.map h)
          (by show (key (h a) == m) = true; rw [hk]; exact hb),
        @List.find?_cons_of_pos _ (fun x => key x == m) a l hb]
      rfl
    · rw [List.map_cons,
        @List.find?_cons_of_neg _ (fun x => key x == m) (h a) (l.map h)
          (by show ¬ (key (h a) == m) = true; rw [hk]; exact hb),
        @List.find?_cons_of_neg _ (fun x => key x == m) a l hb, ih]

theorem updateAgent_tasks (w : World) (i : Nat) (f : AgentRow → AgentRow) :
    (updateAgent w i f).tasks = w.tasks := rfl

theorem updateAgent_subtasks (w : World) (i : Nat) (f : AgentRow → AgentRow) :
    (updateAgent w i f).subtasks = w.subtasks := rfl

theorem updateAgent_messages (w : World) (i : Nat) (f : AgentRow → AgentRow) :
    (updateAgent w i f).messages = w.messages := rfl

theorem updateTask_subtasks (w : World) (i : Nat) (f : TaskRow → TaskRow) :
    (updateTask w i f).subtasks = w.subtasks := rfl

theorem updateSubtask_tasks (w : World) (i : Nat) (f : SubtaskRow → SubtaskRow) :
    (updateSubtask w i f).tasks = w.tasks := rfl

theorem updateMessage_tasks (w : World) (i : Nat) (f : MessageRow → MessageRow) :
    (updateMessage w i f).tasks = w.tasks := rfl

theorem updateMessage_subtasks (w : World) (i : Nat) (f : MessageRow → MessageRow) :
    (updateMessage w i f).subtasks = w.subtasks := rfl

theorem assignAgentToHub_tasks (w : World) (aid : Nat) (h : String) :
    ((assignAgentToHub w aid h).1).tasks = w.tasks := by
  unfold assignAgentToHub
  cases findAgent w aid with
  | none => rfl
  | some a => dsimp only; split <;> rfl

theorem assignAgentToHub_subtasks (w : World) (aid : Nat) (h : String) :
    ((assignAgentToHub w aid h).1).subtasks = w.subtasks := by
  unfold assignAgentToHub
  cases findAgent w aid with
  | none => rfl
  | some a => dsimp only; split <;> rfl

theorem assignAgentToHub_messages (w : World) (aid : Nat) (h : String) :
    ((assignAgentToHub w aid h).1).messages = w.messages := by
  unfold assignAgentToHub
  cases findAgent w aid with
  | none => rfl
  | some a => dsimp only; split <;> rfl

theorem foldl_assign_tasks (l : List Nat) (w : World) :
    (l.foldl (fun acc aid => (assignAgentToHub acc aid "town_square").1) w).tasks = w.tasks := by
  induction l generalizing w with
  | nil => rfl
  | cons a l ih => rw [List.foldl_cons, ih, assignAgentToHub_tasks]

theorem foldl_assign_subtasks (l : List Nat) (w : World) :
    (l.foldl (fun acc aid => (assignAgentToHub acc aid "town_square").1) w).subtasks = w.subtasks := by
  induction l generalizing w with
  | nil => rfl
  | cons a l ih => rw [List.foldl_cons, ih, assignAgentToHub_subtasks]

theorem foldl_assign_messages (l : List Nat) (w : World) :
    (l.foldl (fun acc aid => (assignAgentToHub acc aid "town_square").1) w).messages = w.messages := by
  induction l generalizing w with
  | nil => rfl
  | cons a l ih => rw [List.foldl_cons, ih, assignAgentToHub_messages]

theorem celebrateCompletion_tasks (w : World) :
    (celebrateCompletion w).tasks = w.tasks := foldl_assign_tasks _ w

theorem celebrateCompletion_subtasks (w : World) :
    (celebrateCompletion w).subtasks = w.subtasks := foldl_assign_subtasks _ w

theorem checkTaskCompletion_subtasks (w : World) (tid : Nat) :
    (checkTaskCompletion w tid).subtasks = w.subtasks := by
  unfold checkTaskCompletion
  split
  · rw [celebrateCompletion_subtasks, updateTask_subtasks]
  · rfl

theorem requestAgentHelp_tasks (w : World) (fa : AgentRow) (t topic : String) (tid : Nat) :
    (requestAgentHelp w fa t topic tid).tasks = w.tasks := by
  unfold requestAgentHelp
  cases getAgentByType w t with
  | none => rfl
  | some ta => rw [assignAgentToHub_tasks, assignAgentToHub_tasks]

theorem requestAgentHelp_subtasks (w : World) (fa : AgentRow) (t topic : String) (tid : Nat) :
    (requestAgentHelp w fa t topic tid).subtasks = w.subtasks := by
  unfold requestAgentHelp
  cases getAgentByType w t with
  | none => rfl
  | some ta => rw [assignAgentToHub_subtasks, assignAgentToHub_subtasks]

/-! ### Shape of executeSubtask on each table -/

/-- Row transformation of the in_progress write. -/
def inProgressFn (st : SubtaskRow) : SubtaskRow → SubtaskRow :=
  fun s => if s.id == st.id then { s with status := SubtaskStatus.in_progress } else s

/-- Row transformation of the completing write. -/
def completeFn (o : Oracle) (st : SubtaskRow) (response : String) : SubtaskRow → SubtaskRow :=
  fun s =>
    if s.id == st.id then
      { s with status := SubtaskStatus.completed,
               output := some (outputOrRaw (parseAgentResponse o.jsonParse response).output response) }
    else s

/-- Row transformation of the failing write. -/
def failFn (st : SubtaskRow) : SubtaskRow → SubtaskRow :=
  fun s => if s.id == st.id then { s with status := SubtaskStatus.failed } else s

/-- Row transformation of the agent write opening a subtask. -/
def workingFn (st : SubtaskRow) : AgentRow → AgentRow :=
  fun a =>
    if a.id == st.agentId then
      { a with status := AgentStatus.working, doing := some (st.description.take 50) }
    else a

/-- Row transformation of the agent write closing a subtask. -/
def idleFn (st : SubtaskRow) : AgentRow → AgentRow :=
  fun a => if a.id == st.agentId then { a with status := AgentStatus.idle, doing := none } else a

theorem inProgressFn_id (st : SubtaskRow) (s : SubtaskRow) : (inProgressFn st s).id = s.id := by
  unfold inProgressFn; split <;> rfl

theorem completeFn_id (o : Oracle) (st : SubtaskRow) (r : String) (s : SubtaskRow) :
    (completeFn o st r s).id = s.id := by
  unfold completeFn; split <;> rfl

theorem failFn_id (st : SubtaskRow) (s : SubtaskRow) : (failFn st s).id = s.id := by
  unfold failFn; split <;> rfl

theorem startSubtask_subtasks (w : World) (st : SubtaskRow) :
    (startSubtask w st).subtasks = w.subtasks.map (inProgressFn st) := rfl

theorem startSubtask_tasks (w : World) (st : SubtaskRow) :
    (startSubtask w st).tasks = w.tasks := rfl

theorem startSubtask_messages (w : World) (st : SubtaskRow) :
    (startSubtask w st).messages = w.messages := rfl

theorem finishAgent_subtasks (w : World) (st : SubtaskRow) :
    (finishAgent w st).subtasks = w.subtasks := rfl

theorem finishAgent_tasks (w : World) (st : SubtaskRow) :
    (finishAgent w st).tasks = w.tasks := rfl

theorem successBody_subtasks (o : Oracle) (w : World) (st : SubtaskRow) (r : String) :
    (successBody o w st r).subtasks = w.subtasks.map (completeFn o st r) := by
  unfold successBody
  rw [checkTaskCompletion_subtasks]
  split
  · split
    · rw [requestAgentHelp_subtasks]; rfl
    · rfl
  · rfl

theorem executeSubtask_subtasks_success (o : Oracle) (w : World) (st : SubtaskRow) (r : String)
    (hcall : o.callResult st.id = some r) :
    (executeSubtask o w st).subtasks =
      (w.subtasks.map (inProgressFn st)).map (completeFn o st r) := by
  unfold executeSubtask
  rw [hcall]
  rw [finishAgent_subtasks, successBody_subtasks, startSubtask_subtasks]

theorem executeSubtask_subtasks_fail (o : Oracle) (w : World) (st : SubtaskRow)
    (hcall : o.callResult st.id = none) :
    (executeSubtask o w st).subtasks =
      (w.subtasks.map (inProgressFn st)).map (failFn st) := by
  unfold executeSubtask
  rw [hcall]
  rfl

theorem executeSubtask_tasks_fail (o : Oracle) (w : World) (st : SubtaskRow)
    (hcall : o.callResult st.id = none) :
    (executeSubtask o w st).tasks = w.tasks := by
  unfold executeSubtask
  rw [hcall]
  rfl

theorem executeSubtask_messages_fail (o : Oracle) (w : World) (st : SubtaskRow)
    (hcall : o.callResult st.id = none) :
    (executeSubtask o w st).messages = w.messages := by
  unfold executeSubtask
  rw [hcall]
  rfl

theorem executeSubtask_agents_fail (o : Oracle) (w : World) (st : SubtaskRow)
    (hcall : o.callResult st.id = none) :
    (executeSubtask o w st).agents = (w.agents.map (workingFn st)).map (idleFn st) := by
  unfold executeSubtask
  rw [hcall]
  rfl

/-- find? by subtask id commutes with an id-preserving row map. -/
theorem find?_subtask_map (l : List SubtaskRow) (h : SubtaskRow → SubtaskRow)
    (hk : ∀ s, (h s).id = s.id) (m : Nat) :
    (l.map h).find? (fun s => s.id == m) = (l.find? (fun s => s.id == m)).map h :=
  find?_map_of_key (fun s => s.id) h hk l m

/-! ## Claim C7: the agent state machine -/

/-- C7: the state machine permits exactly the transitions of the table in
spec section 4.2; any other state and event pair is rejected by
`transition`, which then returns false and leaves every field of the agent
unchanged; in particular complete_work attempted while idle is rejected
and the status stays idle. -/
theorem C7_state_machine_matches_spec_table :
    (∀ s e t, canTransition s e = some t ↔ (s, e, t) ∈ specTransitionTable) ∧
    (∀ (a : MachineState) (e : AgentEvent) (p : Payload),
        canTransition a.status e = none → transition a e p = (false, a)) ∧
    (∀ (a : MachineState) (p : Payload), a.status = AgentStatus.idle →
        transition a .complete_work p = (false, a)) := by
  refine ⟨by decide, ?_, ?_⟩
  · intro a e p h
    unfold transition
    rw [h]
  · intro a p h
    unfold transition
    rw [h]
    rfl

/-- An idle agent resting at the town square. -/
def idleAgent : MachineState :=
  { status := .idle, currentHub := some "town_square", targetHub := none,
    currentTask := none, currentSubtask := none, pos := (0, 0), doing := none,
    chattingWith := none }

/-- Witness for C7 at a concrete agent: complete_work while idle is
rejected and changes nothing. -/
theorem C7_state_machine_witness :
    idleAgent.status = AgentStatus.idle ∧
    transition idleAgent .complete_work {} = (false, idleAgent) :=
  ⟨rfl, C7_state_machine_matches_spec_table.2.2 idleAgent {} rfl⟩

/-! ## Claim C10: assigning an agent to its current hub is a no-op -/

/-- C10: Orchestrator.assignAgentToHub called with the hub the agent
already occupies returns before any write: the world (agent status,
target hub, position, every row) is unchanged and no move event is
emitted. -/
theorem C10_assign_current_hub_noop (w : World) (aid : Nat) (hub : String) (a : AgentRow)
    (hfind : findAgent w aid = some a) (hhub : a.currentHub = some hub) :
    assignAgentToHub w aid hub = (w, []) := by
  unfold assignAgentToHub
  rw [hfind]
  simp [hhub]

/-- A world holding one coder agent already at the coding hub. -/
def wC10 : World :=
  { tasks := [], subtasks := [],
    agents := [{ id := 1, type := "coder", status := .idle, currentHub := some "coding_hub",
                 targetHub := none, doing := none, pos := (0, 0) }],
    messages := [], hubs := [], nextMessageId := 0 }

/-- Witness for C10 at a concrete world. -/
theorem C10_assign_current_hub_noop_witness :
    assignAgentToHub wC10 1 "coding_hub" = (wC10, []) :=
  C10_assign_current_hub_noop wC10 1 "coding_hub"
    { id := 1, type := "coder", status := .idle, currentHub := some "coding_hub",
      targetHub := none, doing := none, pos := (0, 0) }
    rfl rfl

/-! ## Claim C9: unparsable replies degrade gracefully -/

/-- C9: when the reply of the reasoning call is not parseable as the
structured record, parseAgentResponse yields the record holding the whole
raw reply as output with every other field absent, and executeSubtask
completes the subtask with that raw text as its output. -/
theorem C9_unparsable_reply_degrades (o : Oracle) (w : World) (st : SubtaskRow) (resp : String)
    (hmem : ∃ s ∈ w.subtasks, s.id = st.id)
    (hcall : o.callResult st.id = some resp)
    (hparse : o.jsonParse resp = none) :
    parseAgentResponse o.jsonParse resp =
      { thinking := none, saying := none, doing := none, toAgent := none,
        output := some resp, needsHelp := none, helpTopic := none } ∧
    subtaskStatus (executeSubtask o w st) st.id = some SubtaskStatus.completed ∧
    subtaskOutput (executeSubtask o w st) st.id = some (some resp) := by
  have hpr : parseAgentResponse o.jsonParse resp =
      { thinking := none, saying := none, doing := none, toAgent := none,
        output := some resp, needsHelp := none, helpTopic := none } := by
    unfold parseAgentResponse
    rw [hparse]
  obtain ⟨s0, hs0mem, hs0id⟩ := hmem
  have hfind : (w.subtasks.find? (fun s => s.id == st.id)).isSome := by
    rw [List.find?_isSome]
    exact ⟨s0, hs0mem, by simp [hs0id]⟩
  obtain ⟨s1, hs1⟩ := Option.isSome_iff_exists.mp hfind
  have hp1 : (s1.id == st.id) = true := by simpa using List.find?_some hs1
  have hshape := executeSubtask_subtasks_success o w st resp hcall
  have hout : outputOrRaw (parseAgentResponse o.jsonParse resp).output resp = resp := by
    rw [hpr]
    unfold outputOrRaw
    exact ite_self resp
  have hchain :
      ((executeSubtask o w st).subtasks.find? (fun s => s.id == st.id)) =
        some (completeFn o st resp (inProgressFn st s1)) := by
    rw [hshape, find?_subtask_map _ _ (completeFn_id o st resp) _,
      find?_subtask_map _ _ (inProgressFn_id st) _, hs1]
    rfl
  have hval : completeFn o st resp (inProgressFn st s1) =
      { inProgressFn st s1 with status := SubtaskStatus.completed, output := some resp } := by
    unfold completeFn
    rw [if_pos (by rw [inProgressFn_id]; exact hp1), hout]
  refine ⟨hpr, ?_, ?_⟩
  · unfold subtaskStatus
    rw [hchain, hval]
    rfl
  · unfold subtaskOutput
    rw [hchain, hval]
    rfl

/-- Subtask used by the C9 witness: the coder subtask of scenario B. -/
def stC9 : SubtaskRow :=
  { id := 900, taskId := 90, agentId := 1, agentType := "coder", description := "write code",
    hubId := "coding_hub", sequence := 0, status := .assigned, output := none }

/-- World used by the C9 witness. -/
def wC9 : World :=
  { tasks := [{ id := 90, prompt := "build a page", status := .in_progress, createdAt := 0 }],
    subtasks := [stC9],
    agents := [{ id := 1, type := "coder", status := .idle, currentHub := some "coding_hub",
                 targetHub := none, doing := none, pos := (0, 0) }],
    messages := [], hubs := [], nextMessageId := 0 }

/-- Oracle used by the C9 witness: the reply of scenario B, never
parseable. -/
def oC9 : Oracle :=
  { callResult := fun _ => some "I did it, no JSON here",
    jsonParse := fun _ => none,
    chatCallOk := fun _ => true }

/-- Witness for C9: scenario B of the spec run on a concrete world. -/
theorem C9_unparsable_reply_degrades_witness :
    subtaskStatus (executeSubtask oC9 wC9 stC9) 900 = some SubtaskStatus.completed ∧
    subtaskOutput (executeSubtask oC9 wC9 stC9) 900 = some (some "I did it, no JSON here") := by
  have h := C9_unparsable_reply_degrades oC9 wC9 stC9 "I did it, no JSON here"
    ⟨stC9, by simp [wC9], rfl⟩ rfl rfl
  exact ⟨h.2.1, h.2.2⟩

/-! ## Claim C2: effect of a subtask failure -/

/-- C2 as amended: when the reasoning call for a subtask throws, the
subtask row is marked failed and its agent reset to idle, and nothing
else happens: no task status changes (in particular the owning task is
not marked failed) and no message is produced.  The refuted parts of C2
(fail-fast to the task, no further dispatch) are exhibited by the
counterexample. -/
theorem C2_subtask_failure_effects (o : Oracle) (w : World) (st : SubtaskRow)
    (hmem : ∃ s ∈ w.subtasks, s.id = st.id)
    (hfail : o.callResult st.id = none) :
    subtaskStatus (executeSubtask o w st) st.id = some SubtaskStatus.failed ∧
    (executeSubtask o w st).tasks = w.tasks ∧
    (executeSubtask o w st).messages = w.messages ∧
    (∀ a ∈ (executeSubtask o w st).agents, a.id = st.agentId →
      a.status = AgentStatus.idle) := by
  obtain ⟨s0, hs0mem, hs0id⟩ := hmem
  have hfind : (w.subtasks.find? (fun s => s.id == st.id)).isSome := by
    rw [List.find?_isSome]
    exact ⟨s0, hs0mem, by simp [hs0id]⟩
  obtain ⟨s1, hs1⟩ := Option.isSome_iff_exists.mp hfind
  have hp1 : (s1.id == st.id) = true := by simpa using List.find?_some hs1
  refine ⟨?_, executeSubtask_tasks_fail o w st hfail,
    executeSubtask_messages_fail o w st hfail, ?_⟩
  · unfold subtaskStatus
    rw [executeSubtask_subtasks_fail o w st hfail,
      find?_subtask_map _ _ (failFn_id st) _,
      find?_subtask_map _ _ (inProgressFn_id st) _, hs1]
    have hval : failFn st (inProgressFn st s1) =
        { inProgressFn st s1 with status := SubtaskStatus.failed } := by
      unfold failFn
      rw [if_pos (by rw [inProgressFn_id]; exact hp1)]
    simp only [Option.map_some']
    rw [hval]
  · intro a ha hid
    rw [executeSubtask_agents_fail o w st hfail] at ha
    obtain ⟨b, hb, rfl⟩ := List.mem_map.mp ha
    obtain ⟨c, hc, rfl⟩ := List.mem_map.mp hb
    unfold idleFn at hid ⊢
    by_cases hcnd : ((workingFn st c).id == st.agentId) = true
    · rw [if_pos hcnd]
    · rw [if_neg hcnd] at hid
      exact absurd (by rw [hid]; exact beq_self_eq_true _) hcnd

/-- Designer subtask of the C2 counterexample. -/
def st0C2 : SubtaskRow :=
  { id := 200, taskId := 20, agentId := 1, agentType := "designer", description := "design it",
    hubId := "design_hub", sequence := 0, status := .assigned, output := none }

/-- Coder subtask of the C2 counterexample. -/
def st1C2 : SubtaskRow :=
  { id := 201, taskId := 20, agentId := 2, agentType := "coder", description := "code it",
    hubId := "coding_hub", sequence := 1, status := .assigned, output := none }

/-- World of the C2 counterexample: both subtasks of one task are ready. -/
def wC2 : World :=
  { tasks := [{ id := 20, prompt := "build a page", status := .in_progress, createdAt := 0 }],
    subtasks := [st0C2, st1C2],
    agents :=
      [{ id := 1, type := "designer", status := .idle, currentHub := some "design_hub",
         targetHub := none, doing := none, pos := (0, 0) },
       { id := 2, type := "coder", status := .idle, currentHub := some "coding_hub",
         targetHub := none, doing := none, pos := (0, 0) }],
    messages := [], hubs := [], nextMessageId := 0 }

/-- Oracle of the C2 counterexample: the call for the first subtask
throws, the call for the second succeeds. -/
def oC2 : Oracle :=
  { callResult := fun sid => if sid == 200 then none else some "ok",
    jsonParse := fun _ => none,
    chatCallOk := fun _ => true }

/-- Counterexample to C2 as stated: after the dispatch phase the first
subtask is failed, yet the owning task is still in_progress (never marked
failed), and the second subtask of the same task was still dispatched and
ran to completion. -/
theorem C2_counterexample :
    subtaskStatus (processSubtasks oC2 wC2) 200 = some SubtaskStatus.failed ∧
    taskStatus (processSubtasks oC2 wC2) 20 = some TaskStatus.in_progress ∧
    subtaskStatus (processSubtasks oC2 wC2) 201 = some SubtaskStatus.completed := by
  refine ⟨?_, ?_, ?_⟩ <;> rfl

/-- Witness for C2 as amended, at the concrete failing subtask of the
counterexample world. -/
theorem C2_subtask_failure_effects_witness :
    subtaskStatus (executeSubtask oC2 wC2 st0C2) 200 = some SubtaskStatus.failed ∧
    (executeSubtask oC2 wC2 st0C2).tasks = wC2.tasks := by
  have h := C2_subtask_failure_effects oC2 wC2 st0C2 ⟨st0C2, by simp [wC2], rfl⟩ rfl
  exact ⟨h.1, h.2.1⟩

/-! ## Claim C1: dispatch order and its precondition -/

/-- C1 as amended: within one tick the dispatcher executes the ready
subtasks in ascending sequence order, but readiness consists exactly of
the subtask being assigned with its agent idle at the subtask hub; the
completion of lower-sequence subtasks is not part of the dispatch
precondition, so out-of-order execution is not rejected (the
counterexample exhibits it). -/
theorem C1_dispatch_order_and_precondition (w : World) :
    List.Sorted seqLE (readySubtasks w) ∧
    (∀ st, st ∈ readySubtasks w ↔ st ∈ w.subtasks ∧ subtaskReady w st = true) ∧
    (∀ st, subtaskReady w st = true ↔
      st.status = SubtaskStatus.assigned ∧
      ∃ a, findAgent w st.agentId = some a ∧ a.status = AgentStatus.idle ∧
        a.currentHub = some st.hubId) := by
  refine ⟨List.sorted_insertionSort seqLE _, fun st => ?_, fun st => ?_⟩
  · rw [readySubtasks, (List.perm_insertionSort seqLE _).mem_iff, List.mem_filter]
  · unfold subtaskReady
    cases hfa : findAgent w st.agentId with
    | none => simp [hfa]
    | some a => simp [hfa, and_assoc]

/-- Traveling designer of the C1 counterexample. -/
def agA1 : AgentRow :=
  { id := 1, type := "designer", status := .traveling, currentHub := none,
    targetHub := some "design_hub", doing := none, pos := (0, 0) }

/-- Idle coder of the C1 counterexample, already at its hub. -/
def agB1 : AgentRow :=
  { id := 2, type := "coder", status := .idle, currentHub := some "coding_hub",
    targetHub := none, doing := none, pos := (0, 0) }

/-- Sequence-zero subtask of the C1 counterexample (agent not arrived). -/
def st0C1 : SubtaskRow :=
  { id := 100, taskId := 10, agentId := 1, agentType := "designer", description := "design it",
    hubId := "design_hub", sequence := 0, status := .assigned, output := none }

/-- Sequence-one subtask of the C1 counterexample (agent ready). -/
def st1C1 : SubtaskRow :=
  { id := 101, taskId := 10, agentId := 2, agentType := "coder", description := "code it",
    hubId := "coding_hub", sequence := 1, status := .assigned, output := none }

/-- World of the C1 counterexample. -/
def wC1 : World :=
  { tasks := [{ id := 10, prompt := "build a page", status := .in_progress, createdAt := 0 }],
    subtasks := [st0C1, st1C1],
    agents := [agA1, agB1],
    messages := [], hubs := [], nextMessageId := 0 }

/-- Oracle of the C1 counterexample. -/
def oC1 : Oracle :=
  { callResult := fun _ => some "done",
    jsonParse := fun _ => none,
    chatCallOk := fun _ => true }

/-- Counterexample to C1 as stated: the sequence-one subtask is selected
and executed by the dispatcher (it ends the phase completed) while the
sequence-zero subtask of the same task is still assigned, far from
completed — the dispatcher does not reject out-of-order execution. -/
theorem C1_counterexample :
    st1C1 ∈ readySubtasks wC1 ∧
    subtaskStatus wC1 100 = some SubtaskStatus.assigned ∧
    subtaskStatus (processSubtasks oC1 wC1) 101 = some SubtaskStatus.completed ∧
    subtaskStatus (processSubtasks oC1 wC1) 100 = some SubtaskStatus.assigned := by
  refine ⟨?_, rfl, ?_, ?_⟩
  · decide
  · rfl
  · rfl

/-! ## Claim C3: terminal task statuses -/

/-- An update keyed on an id is the identity when the key rows are fixed
by the row function. -/
theorem updateTask_eq_self (w : World) (tid : Nat) (f : TaskRow → TaskRow)
    (h : ∀ t ∈ w.tasks, t.id = tid → f t = t) : updateTask w tid f = w := by
  have hmap : ∀ l : List TaskRow, (∀ t ∈ l, t.id = tid → f t = t) →
      l.map (fun t => if t.id == tid then f t else t) = l := by
    intro l hl
    induction l with
    | nil => rfl
    | cons a l ih =>
      rw [List.map_cons, ih (fun t ht h2 => hl t (List.mem_cons_of_mem a ht) h2)]
      by_cases hb : (a.id == tid) = true
      · rw [if_pos hb, hl a (List.mem_cons_self a l) (by simpa using hb)]
      · rw [if_neg hb]
  unfold updateTask
  rw [hmap w.tasks h]

/-- C3 as amended: the cancel route is a no-op on tasks already completed
or cancelled; but a failed task — also terminal — is mutated to
cancelled, and the completion check sets any task whose outstanding
subtask count is zero to completed with no guard on its current status,
so a cancelled task is revived to completed when its last subtask
completes (the counterexample exhibits both violations of finality). -/
theorem C3_terminal_status_behavior (w : World) (tid : Nat) :
    ((∀ t ∈ w.tasks, t.id = tid →
        t.status = TaskStatus.completed ∨ t.status = TaskStatus.cancelled) →
      cancelTask w tid = w) ∧
    (∀ t ∈ w.tasks, t.status = TaskStatus.failed →
      { t with status := TaskStatus.cancelled } ∈ (cancelTask w t.id).tasks) ∧
    (∀ t ∈ w.tasks, pendingCount w t.id = 0 →
      { t with status := TaskStatus.completed } ∈ (checkTaskCompletion w t.id).tasks) := by
  refine ⟨?_, ?_, ?_⟩
  · intro hterm
    apply updateTask_eq_self
    intro t ht hid
    rcases hterm t ht hid with h | h <;> simp [h]
  · intro t ht hfailed
    unfold cancelTask updateTask
    refine List.mem_map.mpr ⟨t, ht, ?_⟩
    rw [if_pos (beq_self_eq_true t.id)]
    simp [hfailed]
  · intro t ht hpend
    unfold checkTaskCompletion
    rw [if_pos hpend, celebrateCompletion_tasks]
    unfold updateTask
    refine List.mem_map.mpr ⟨t, ht, ?_⟩
    rw [if_pos (beq_self_eq_true t.id)]

/-- World of the C3 counterexample: a cancelled task whose only subtask
has completed, and a failed task. -/
def wC3 : World :=
  { tasks := [{ id := 30, prompt := "p", status := .cancelled, createdAt := 0 },
              { id := 31, prompt := "q", status := .failed, createdAt := 0 }],
    subtasks := [{ id := 300, taskId := 30, agentId := 1, agentType := "coder",
                   description := "d", hubId := "coding_hub", sequence := 0,
                   status := .completed, output := some "out" }],
    agents := [], messages := [], hubs := [], nextMessageId := 0 }

/-- Counterexample to C3 as stated: the completion check run after the
in-flight subtask of the cancelled task 30 returns flips the task to
completed, and cancelling the failed (terminal) task 31 mutates it to
cancelled. -/
theorem C3_counterexample :
    taskStatus wC3 30 = some TaskStatus.cancelled ∧
    taskStatus (checkTaskCompletion wC3 30) 30 = some TaskStatus.completed ∧
    taskStatus wC3 31 = some TaskStatus.failed ∧
    taskStatus (cancelTask wC3 31) 31 = some TaskStatus.cancelled := by
  refine ⟨rfl, rfl, rfl, rfl⟩

/-- World of the C3 witness. -/
def wC3w : World :=
  { tasks := [{ id := 1, prompt := "a", status := .completed, createdAt := 0 },
              { id := 2, prompt := "b", status := .failed, createdAt := 0 },
              { id := 3, prompt := "c", status := .cancelled, createdAt := 0 }],
    subtasks := [{ id := 33, taskId := 3, agentId := 1, agentType := "coder",
                   description := "d", hubId := "coding_hub", sequence := 0,
                   status := .completed, output := some "o" }],
    agents := [], messages := [], hubs := [], nextMessageId := 0 }

/-- Witness for C3 as amended, at concrete tasks of each terminal
status. -/
theorem C3_terminal_status_behavior_witness :
    cancelTask wC3w 1 = wC3w ∧
    ({ id := 2, prompt := "b", status := TaskStatus.cancelled, createdAt := 0 } : TaskRow) ∈
      (cancelTask wC3w 2).tasks ∧
    ({ id := 3, prompt := "c", status := TaskStatus.completed, createdAt := 0 } : TaskRow) ∈
      (checkTaskCompletion wC3w 3).tasks := by
  refine ⟨(C3_terminal_status_behavior wC3w 1).1 (by decide), ?_, ?_⟩
  · exact (C3_terminal_status_behavior wC3w 2).2.1
      { id := 2, prompt := "b", status := TaskStatus.failed, createdAt := 0 }
      (by decide) rfl
  · exact (C3_terminal_status_behavior wC3w 3).2.2
      { id := 3, prompt := "c", status := TaskStatus.cancelled, createdAt := 0 }
      (by decide) (by decide)

/-! ## Claim C5: message delivery -/

/-- A message already read survives any delivery loop unchanged: the loop
only ever writes the read flag to true. -/
theorem deliverLoop_read_preserved (o : Oracle) (L : List MessageRow) (w : World)
    (m : MessageRow) (hm : m ∈ w.messages) (hr : m.readAt = true) :
    m ∈ (deliverLoop o L w).1.messages := by
  induction L generalizing w with
  | nil => exact hm
  | cons x L ih =>
    have hm1 : m ∈ (updateMessage w x.id (fun mm => { mm with readAt := true })).messages := by
      unfold updateMessage
      refine List.mem_map.mpr ⟨m, hm, ?_⟩
      by_cases hb : (m.id == x.id) = true
      · rw [if_pos hb]
        cases m
        simp_all
      · rw [if_neg hb]
    unfold deliverLoop
    split
    · exact ih _ hm1
    · exact hm1

/-- C5 as amended: a message is delivered at most once — the delivery
query selects only unread messages and a read message is never written
again — and delivery happens exactly when both the sender row and the
recipient row record the town square (the hub every help message is
created with) as their current hub.  The traveling status of either agent
is not consulted, and a traveling agent keeps its stale current hub, so a
message can be delivered while a participant is traveling (see the
counterexample). -/
theorem C5_delivery_conditions (o : Oracle) (w : World) :
    (∀ m ∈ readyMessages w, m.readAt = false) ∧
    (∀ m ∈ readyMessages w,
      (∃ fa, findAgent w m.fromAgentId = some fa ∧ fa.currentHub = some "town_square") ∧
      (∃ ta, findAgent w m.toAgentId = some ta ∧ ta.currentHub = some "town_square")) ∧
    (∀ m ∈ w.messages, m.readAt = true → m ∈ (processMessages o w).1.messages) ∧
    (∀ fa ttype topic tid, ∀ m ∈ (requestAgentHelp w fa ttype topic tid).messages,
      m ∈ w.messages ∨ m.hubId = "town_square") := by
  have hmemready : ∀ m, m ∈ readyMessages w → messageReady w m = true := by
    intro m hm
    rw [readyMessages, (List.perm_insertionSort msgLE _).mem_iff, List.mem_filter] at hm
    exact hm.2
  refine ⟨?_, ?_, ?_, ?_⟩
  · intro m hm
    have h := hmemready m hm
    unfold messageReady at h
    cases hra : m.readAt
    · rfl
    · rw [hra] at h
      simp at h
  · intro m hm
    have h := hmemready m hm
    unfold messageReady at h
    cases hfa : findAgent w m.fromAgentId with
    | none =>
      rw [hfa] at h
      simp at h
    | some fa =>
      cases hta : findAgent w m.toAgentId with
      | none =>
        rw [hfa, hta] at h
        simp at h
      | some ta =>
        rw [hfa, hta] at h
        simp only [Bool.and_eq_true, beq_iff_eq] at h
        exact ⟨⟨fa, rfl, h.1.2⟩, ⟨ta, rfl, h.2⟩⟩
  · intro m hm hr
    exact deliverLoop_read_preserved o _ w m hm hr
  · intro fa ttype topic tid m hm
    unfold requestAgentHelp at hm
    cases hta : getAgentByType w ttype with
    | none =>
      rw [hta] at hm
      exact Or.inl hm
    | some ta =>
      rw [hta, assignAgentToHub_messages, assignAgentToHub_messages] at hm
      rcases List.mem_append.mp hm with h | h
      · exact Or.inl h
      · right
        rw [List.mem_singleton] at h
        rw [h]

/-- Idle sender of the C5 counterexample. -/
def sndC5 : AgentRow :=
  { id := 1, type := "coder", status := .idle, currentHub := some "town_square",
    targetHub := none, doing := none, pos := (0, 0) }

/-- Traveling recipient of the C5 counterexample: en route to the design
hub, its current hub column still holds the town square. -/
def rcvC5 : AgentRow :=
  { id := 2, type := "designer", status := .traveling, currentHub := some "town_square",
    targetHub := some "design_hub", doing := none, pos := (0, 0) }

/-- Undelivered message of the C5 counterexample. -/
def msgC5 : MessageRow :=
  { id := 500, taskId := 50, fromAgentId := 1, toAgentId := 2, content := "help",
    hubId := "town_square", readAt := false, createdAt := 0 }

/-- World of the C5 counterexample. -/
def wC5 : World :=
  { tasks := [], subtasks := [], agents := [sndC5, rcvC5], messages := [msgC5],
    hubs := [], nextMessageId := 501 }

/-- Oracle of the C5 counterexample. -/
def oC5 : Oracle :=
  { callResult := fun _ => some "ok", jsonParse := fun _ => none, chatCallOk := fun _ => true }

/-- Counterexample to C5 as stated: the message is delivered on a tick
where the recipient has status traveling. -/
theorem C5_counterexample :
    agentStatus wC5 2 = some AgentStatus.traveling ∧
    messageRead wC5 500 = some false ∧
    messageRead (processMessages oC5 wC5).1 500 = some true := by
  refine ⟨rfl, rfl, rfl⟩

/-- An already-read message, for the C5 witness. -/
def mReadC5 : MessageRow :=
  { id := 501, taskId := 50, fromAgentId := 1, toAgentId := 2, content := "done",
    hubId := "town_square", readAt := true, createdAt := 1 }

/-- World of the C5 witness. -/
def wC5w : World :=
  { tasks := [], subtasks := [], agents := [sndC5, rcvC5], messages := [msgC5, mReadC5],
    hubs := [], nextMessageId := 502 }

/-- Witness for C5 as amended at a concrete world: the ready message is
unread, and the already-read message survives the delivery phase
untouched. -/
theorem C5_delivery_conditions_witness :
    msgC5.readAt = false ∧
    mReadC5 ∈ (processMessages oC5 wC5w).1.messages :=
  ⟨(C5_delivery_conditions oC5 wC5w).1 msgC5 (by decide),
   (C5_delivery_conditions oC5 wC5w).2.2.1 mReadC5 (by decide) rfl⟩

/-! ## Claim C6: per-tick fault behaviour -/

/-- A phase that throws immediately, for exercising the tick skeleton. -/
def phaseThrow : Nat → Nat × Bool := fun s => (s, true)

/-- A phase that increments the state and returns, for exercising the
tick skeleton. -/
def phaseStep : Nat → Nat × Bool := fun s => (s + 1, false)

/-- C6 as amended: the four phases run inside one shared try block, so a
phase that throws prevents every later phase of that tick from running;
only the scheduling of the next tick is protected — it happens
unconditionally.  All four phases run exactly when each returns without
throwing. -/
theorem C6_tick_fault_isolation {σ : Type} (p1 p2 p3 p4 : σ → σ × Bool) (s : σ) :
    (tickModel p1 p2 p3 p4 s).2.2 = true ∧
    ((p1 s).2 = true →
      (tickModel p1 p2 p3 p4 s).2.1 = [0] ∧ (tickModel p1 p2 p3 p4 s).1 = (p1 s).1) ∧
    ((p1 s).2 = false → (p2 (p1 s).1).2 = false → (p3 (p2 (p1 s).1).1).2 = false →
      (tickModel p1 p2 p3 p4 s).2.1 = [0, 1, 2, 3]) := by
  refine ⟨?_, ?_, ?_⟩
  · unfold tickModel
    dsimp only
    split
    · rfl
    · split
      · rfl
      · split
        · rfl
        · rfl
  · intro h1
    unfold tickModel
    dsimp only
    rw [if_pos h1]
    exact ⟨rfl, rfl⟩
  · intro h1 h2 h3
    unfold tickModel
    dsimp only
    rw [if_neg (by rw [h1]; exact Bool.false_ne_true),
      if_neg (by rw [h2]; exact Bool.false_ne_true),
      if_neg (by rw [h3]; exact Bool.false_ne_true)]

/-- Counterexample to C6 as stated: with the first phase throwing, the
remaining three phases of the tick never run (the run list stays [0] and
the state is untouched by the later phases), though the next tick is
still scheduled. -/
theorem C6_counterexample :
    (tickModel phaseThrow phaseStep phaseStep phaseStep 0).2.1 = [0] ∧
    (tickModel phaseThrow phaseStep phaseStep phaseStep 0).2.1 ≠ [0, 1, 2, 3] ∧
    (tickModel phaseThrow phaseStep phaseStep phaseStep 0).1 = 0 ∧
    (tickModel phaseThrow phaseStep phaseStep phaseStep 0).2.2 = true := by
  refine ⟨rfl, by decide, rfl, rfl⟩

/-- Witness for C6 as amended: a concrete tick whose first phase throws
keeps the later phases from running, and a concrete tick whose first
three phases return runs all four; the next tick is scheduled in both. -/
theorem C6_tick_fault_isolation_witness :
    (phaseThrow 5).2 = true ∧
    (tickModel phaseThrow phaseStep phaseStep phaseStep 5).2.1 = [0] ∧
    (tickModel phaseStep phaseStep phaseStep phaseThrow 7).2.1 = [0, 1, 2, 3] ∧
    (tickModel phaseStep phaseStep phaseStep phaseThrow 7).2.2 = true :=
  ⟨rfl,
   ((C6_tick_fault_isolation phaseThrow phaseStep phaseStep phaseStep 5).2.1 rfl).1,
   (C6_tick_fault_isolation phaseStep phaseStep phaseStep phaseThrow 7).2.2 rfl rfl rfl,
   (C6_tick_fault_isolation phaseStep phaseStep phaseStep phaseThrow 7).1⟩

/-! ## Claim C8: the numeric movement step -/

theorem distanceR_self (p : Pt) : distanceR p p = 0 := by
  unfold distanceR
  simp

/-- Distance from the start of a lerp step grows linearly in the
parameter. -/
theorem distanceR_lerpPointR (p q : Pt) (t : ℝ) (ht : 0 ≤ t) :
    distanceR p (lerpPointR p q t) = t * distanceR p q := by
  unfold distanceR lerpPointR lerpR
  dsimp only
  rw [show (p.x + (q.x - p.x) * t - p.x) ^ 2 + (p.y + (q.y - p.y) * t - p.y) ^ 2
      = t ^ 2 * ((q.x - p.x) ^ 2 + (q.y - p.y) ^ 2) from by ring,
    Real.sqrt_mul (sq_nonneg t), Real.sqrt_sq ht]

/-- C8 as amended: a movement step taken at distance at least the 0.1
threshold reports the agent still moving and advances the position along
the straight line to the hub by exactly min(speed · Δt, distance); a step
taken below the threshold reports arrival without advancing (the
orchestrator then snaps the position to the hub, see the counterexample
for the resulting deviation from the claim); arrival is reported exactly
when the remaining distance is below 0.1. -/
theorem C8_movement_step (pos hub : Pt) (speed deltaTime : ℝ)
    (hfar : ¬ distanceR pos hub < 0.1) (hnn : 0 ≤ speed * deltaTime) :
    (moveAgentToHub pos hub speed deltaTime).1 = false ∧
    (moveAgentToHub pos hub speed deltaTime).2 =
      lerpPointR pos hub (min (speed * deltaTime) (distanceR pos hub) / distanceR pos hub) ∧
    distanceR pos (moveAgentToHub pos hub speed deltaTime).2 =
      min (speed * deltaTime) (distanceR pos hub) ∧
    (∀ p h : Pt, ∀ sp dt : ℝ, (moveAgentToHub p h sp dt).1 = true ↔ distanceR p h < 0.1) := by
  have hdpos : 0 < distanceR pos hub := lt_of_lt_of_le (by norm_num) (not_lt.mp hfar)
  have hdne : distanceR pos hub ≠ 0 := ne_of_gt hdpos
  have hmove : moveAgentToHub pos hub speed deltaTime =
      (false, lerpPointR pos hub (min (speed * deltaTime / distanceR pos hub) 1)) := by
    unfold moveAgentToHub
    dsimp only
    rw [if_neg hfar]
  have htmin : min (speed * deltaTime / distanceR pos hub) 1
      = min (speed * deltaTime) (distanceR pos hub) / distanceR pos hub := by
    rcases le_total (speed * deltaTime) (distanceR pos hub) with h | h
    · rw [min_eq_left ((div_le_one hdpos).mpr h), min_eq_left h]
    · rw [min_eq_right ((one_le_div hdpos).mpr h), min_eq_right h, div_self hdne]
  have ht0 : 0 ≤ min (speed * deltaTime) (distanceR pos hub) / distanceR pos hub :=
    div_nonneg (le_min hnn hdpos.le) hdpos.le
  refine ⟨by rw [hmove], ?_, ?_, ?_⟩
  · rw [hmove, htmin]
  · rw [hmove, htmin]
    dsimp only
    rw [distanceR_lerpPointR pos hub _ ht0, div_mul_cancel₀ _ hdne]
  · intro p h sp dt
    unfold moveAgentToHub
    dsimp only
    by_cases hc : distanceR p h < 0.1
    · rw [if_pos hc]
      simpa using hc
    · rw [if_neg hc]
      simp [hc]

/-- Counterexample to C8 as stated: at distance 1/20 (below the 0.1
threshold) with speed 2 and Δt 1 the step declares arrival but advances
the position by 0, not by min(s·Δt, distance) = 1/20. -/
theorem C8_counterexample :
    distanceR ⟨0, 0⟩ ⟨1/20, 0⟩ = 1/20 ∧
    (moveAgentToHub ⟨0, 0⟩ ⟨1/20, 0⟩ 2 1).1 = true ∧
    distanceR ⟨0, 0⟩ (moveAgentToHub ⟨0, 0⟩ ⟨1/20, 0⟩ 2 1).2 = 0 ∧
    min ((2 : ℝ) * 1) (distanceR ⟨0, 0⟩ ⟨1/20, 0⟩) ≠ 0 := by
  have hd : distanceR ⟨0, 0⟩ ⟨1/20, 0⟩ = 1/20 := by
    unfold distanceR
    dsimp only
    rw [show ((1/20 : ℝ) - 0) ^ 2 + ((0 : ℝ) - 0) ^ 2 = (1/20) ^ 2 from by ring,
      Real.sqrt_sq (by norm_num)]
  have hlt : distanceR ⟨0, 0⟩ ⟨1/20, 0⟩ < 0.1 := by
    rw [hd]
    norm_num
  have hmv : moveAgentToHub ⟨0, 0⟩ ⟨1/20, 0⟩ 2 1 = (true, ⟨0, 0⟩) := by
    unfold moveAgentToHub
    dsimp only
    rw [if_pos hlt]
  refine ⟨hd, by rw [hmv], ?_, ?_⟩
  · rw [hmv]
    exact distanceR_self _
  · rw [hd, min_eq_right (by norm_num)]
    norm_num

/-- Witness for C8 as amended: from the origin toward a hub 3 units away
with speed 2 and Δt 1, the step reports still moving and covers exactly
2 = min(2 · 1, 3) units. -/
theorem C8_movement_step_witness :
    (¬ distanceR ⟨0, 0⟩ ⟨3, 0⟩ < 0.1) ∧
    (moveAgentToHub ⟨0, 0⟩ ⟨3, 0⟩ 2 1).1 = false ∧
    distanceR ⟨0, 0⟩ (moveAgentToHub ⟨0, 0⟩ ⟨3, 0⟩ 2 1).2 = 2 := by
  have hd : distanceR ⟨0, 0⟩ ⟨3, 0⟩ = 3 := by
    unfold distanceR
    dsimp only
    rw [show ((3 : ℝ) - 0) ^ 2 + ((0 : ℝ) - 0) ^ 2 = 3 ^ 2 from by ring,
      Real.sqrt_sq (by norm_num)]
  have hfar : ¬ distanceR ⟨0, 0⟩ ⟨3, 0⟩ < 0.1 := by
    rw [hd]
    norm_num
  have h := C8_movement_step ⟨0, 0⟩ ⟨3, 0⟩ 2 1 hfar (by norm_num)
  refine ⟨hfar, h.1, ?_⟩
  rw [h.2.2.1, hd, min_eq_left (by norm_num)]
  norm_num

/-! ## Claim C4: completed tasks own only completed subtasks -/

/-- The claim C4 as stated, on one world: a task is completed exactly
when every subtask it owns is completed. -/
def taskSubtaskIff (w : World) : Prop :=
  ∀ t ∈ w.tasks, (t.status = TaskStatus.completed ↔
    ∀ s ∈ w.subtasks, s.taskId = t.id → s.status = SubtaskStatus.completed)

instance (w : World) : Decidable (taskSubtaskIff w) := by
  unfold taskSubtaskIff
  infer_instance

/-- The forward half of C4, which the code does maintain: a completed
task owns only completed subtasks. -/
def TaskInv (w : World) : Prop :=
  ∀ t ∈ w.tasks, t.status = TaskStatus.completed →
    ∀ s ∈ w.subtasks, s.taskId = t.id → s.status = SubtaskStatus.completed

instance (w : World) : Decidable (TaskInv w) := by
  unfold TaskInv
  infer_instance

/-- The invariant only reads tasks and subtasks. -/
theorem TaskInv_of_eq (w w' : World) (ht : w'.tasks = w.tasks)
    (hs : w'.subtasks = w.subtasks) (h : TaskInv w) : TaskInv w' := by
  unfold TaskInv at h ⊢
  rw [ht, hs]
  exact h

/-- Generic fold lemma for steps preserving the invariant. -/
theorem foldl_taskInv {α : Type} (f : World → α → World)
    (hf : ∀ w a, TaskInv w → TaskInv (f w a)) (L : List α) (w : World)
    (hinv : TaskInv w) : TaskInv (L.foldl f w) := by
  induction L generalizing w with
  | nil => exact hinv
  | cons a L ih => exact ih _ (hf w a hinv)

/-- A zero outstanding count means every owned subtask is completed. -/
theorem pendingCount_eq_zero (w : World) (tid : Nat) (h : pendingCount w tid = 0) :
    ∀ s ∈ w.subtasks, s.taskId = tid → s.status = SubtaskStatus.completed := by
  intro s hs hstid
  unfold pendingCount at h
  rw [List.length_eq_zero] at h
  have hno := List.filter_eq_nil_iff.mp h s hs
  by_contra hne
  exact hno (by simp [hstid, hne])

/-- Any row of an update keyed by id arises from a source row. -/
theorem mem_updateTask (w : World) (tid : Nat) (f : TaskRow → TaskRow) (t' : TaskRow)
    (h : t' ∈ (updateTask w tid f).tasks) :
    ∃ t ∈ w.tasks, t' = (if t.id == tid then f t else t) := by
  unfold updateTask at h
  obtain ⟨t, ht, heq⟩ := List.mem_map.mp h
  exact ⟨t, ht, heq.symm⟩

/-- Marking a task completed preserves the invariant when all its
subtasks are completed. -/
theorem updateTask_completed_taskInv (w : World) (tid : Nat)
    (hinv : TaskInv w)
    (hall : ∀ s ∈ w.subtasks, s.taskId = tid → s.status = SubtaskStatus.completed) :
    TaskInv (updateTask w tid (fun t => { t with status := TaskStatus.completed })) := by
  intro t' ht' hcomp s hs hsid
  obtain ⟨t, ht, rfl⟩ := mem_updateTask w tid _ t' ht'
  have hs' : s ∈ w.subtasks := hs
  by_cases hb : (t.id == tid) = true
  · have htid : t.id = tid := by simpa using hb
    rw [if_pos hb] at hsid
    exact hall s hs' (hsid.trans htid)
  · rw [if_neg hb] at hcomp hsid
    exact hinv t ht hcomp s hs' hsid

/-- A task update that never writes the completed status preserves the
invariant. -/
theorem updateTask_noncompleting_taskInv (w : World) (tid : Nat) (f : TaskRow → TaskRow)
    (hinv : TaskInv w) (hf : ∀ t, f t = t ∨ (f t).status ≠ TaskStatus.completed) :
    TaskInv (updateTask w tid f) := by
  intro t' ht' hcomp s hs hsid
  obtain ⟨t, ht, rfl⟩ := mem_updateTask w tid f t' ht'
  have hs' : s ∈ w.subtasks := hs
  by_cases hb : (t.id == tid) = true
  · rw [if_pos hb] at hcomp hsid
    rcases hf t with h | h
    · rw [h] at hcomp hsid
      exact hinv t ht hcomp s hs' hsid
    · exact absurd hcomp h
  · rw [if_neg hb] at hcomp hsid
    exact hinv t ht hcomp s hs' hsid

/-- The completion check preserves the invariant: it completes a task
only behind the zero-outstanding guard. -/
theorem checkTaskCompletion_taskInv (w : World) (tid : Nat) (hinv : TaskInv w) :
    TaskInv (checkTaskCompletion w tid) := by
  unfold checkTaskCompletion
  by_cases h : pendingCount w tid = 0
  · rw [if_pos h]
    exact TaskInv_of_eq _ _ (celebrateCompletion_tasks _) (celebrateCompletion_subtasks _)
      (updateTask_completed_taskInv w tid hinv (pendingCount_eq_zero w tid h))
  · rw [if_neg h]
    exact hinv

/-- The invariant survives any subtask-row rewrite whose changed rows are
either completed afterwards or come from rows that were not completed
before (and keep their task). -/
theorem taskInv_map_subtasks_guard (w0 w3 : World)
    (ht : w3.tasks = w0.tasks) (g : SubtaskRow → SubtaskRow)
    (hs : w3.subtasks = w0.subtasks.map g)
    (hg : ∀ s ∈ w0.subtasks, g s = s ∨ (g s).status = SubtaskStatus.completed ∨
      ((g s).taskId = s.taskId ∧ s.status ≠ SubtaskStatus.completed))
    (hinv : TaskInv w0) : TaskInv w3 := by
  intro t ht' hcomp s' hs' hsid
  rw [ht] at ht'
  rw [hs] at hs'
  obtain ⟨s, hsmem, rfl⟩ := List.mem_map.mp hs'
  rcases hg s hsmem with h | h | h
  · rw [h] at hsid ⊢
    exact hinv t ht' hcomp s hsmem hsid
  · exact h
  · exact absurd (hinv t ht' hcomp s hsmem (h.1 ▸ hsid)) h.2

theorem inProgressFn_noeq (st : SubtaskRow) (s : SubtaskRow)
    (hb : ¬ (s.id == st.id) = true) : inProgressFn st s = s := by
  unfold inProgressFn
  rw [if_neg hb]

theorem completeFn_noeq (o : Oracle) (st : SubtaskRow) (r : String) (s : SubtaskRow)
    (hb : ¬ (s.id == st.id) = true) : completeFn o st r s = s := by
  unfold completeFn
  rw [if_neg hb]

theorem failFn_noeq (st : SubtaskRow) (s : SubtaskRow)
    (hb : ¬ (s.id == st.id) = true) : failFn st s = s := by
  unfold failFn
  rw [if_neg hb]

/-- The success body preserves the invariant: the only subtask write
completes rows, and the completion check guards the only task write. -/
theorem successBody_taskInv (o : Oracle) (w0 w : World) (st : SubtaskRow) (r : String)
    (htasks : w.tasks = w0.tasks)
    (hsubs : w.subtasks = w0.subtasks.map (inProgressFn st))
    (hinv : TaskInv w0) : TaskInv (successBody o w st r) := by
  have hw3 : TaskInv { w with subtasks := w.subtasks.map (completeFn o st r) } := by
    refine taskInv_map_subtasks_guard w0 _ htasks
      (fun s => completeFn o st r (inProgressFn st s)) ?_ ?_ hinv
    · show (w.subtasks.map (completeFn o st r)) = _
      rw [hsubs, List.map_map]
      rfl
    · intro s _
      by_cases hb : (s.id == st.id) = true
      · right
        left
        show (completeFn o st r (inProgressFn st s)).status = SubtaskStatus.completed
        unfold completeFn
        rw [if_pos (by rw [inProgressFn_id]; exact hb)]
      · left
        show completeFn o st r (inProgressFn st s) = s
        rw [inProgressFn_noeq st s hb, completeFn_noeq o st r s hb]
  unfold successBody
  apply checkTaskCompletion_taskInv
  split
  · split
    · exact TaskInv_of_eq _ _ (requestAgentHelp_tasks _ _ _ _ _)
        (requestAgentHelp_subtasks _ _ _ _ _) hw3
    · exact hw3
  · exact hw3

/-- One subtask execution preserves the invariant, provided the rows
carrying the executed id are assigned (which dispatch guarantees). -/
theorem executeSubtask_taskInv (o : Oracle) (w : World) (st : SubtaskRow)
    (hinv : TaskInv w)
    (hassigned : ∀ s ∈ w.subtasks, s.id = st.id → s.status = SubtaskStatus.assigned) :
    TaskInv (executeSubtask o w st) := by
  cases hcall : o.callResult st.id with
  | some r =>
    unfold executeSubtask
    rw [hcall]
    exact TaskInv_of_eq _ _ (finishAgent_tasks _ _) (finishAgent_subtasks _ _)
      (successBody_taskInv o w _ st r (startSubtask_tasks w st)
        (startSubtask_subtasks w st) hinv)
  | none =>
    refine taskInv_map_subtasks_guard w _
      (executeSubtask_tasks_fail o w st hcall)
      (fun s => failFn st (inProgressFn st s)) ?_ ?_ hinv
    · rw [executeSubtask_subtasks_fail o w st hcall, List.map_map]
      rfl
    · intro s hsmem
      by_cases hb : (s.id == st.id) = true
      · right
        right
        constructor
        · show (failFn st (inProgressFn st s)).taskId = s.taskId
          unfold failFn
          rw [if_pos (by rw [inProgressFn_id]; exact hb)]
          show (inProgressFn st s).taskId = s.taskId
          unfold inProgressFn
          rw [if_pos hb]
        · show ¬ s.status = SubtaskStatus.completed
          rw [hassigned s hsmem (by simpa using hb)]
          decide
      · left
        show failFn st (inProgressFn st s) = s
        rw [inProgressFn_noeq st s hb, failFn_noeq st s hb]

/-- Rows of the world after a subtask execution either already existed or
carry the executed id. -/
theorem executeSubtask_mem_or (o : Oracle) (w : World) (st : SubtaskRow) :
    ∀ s' ∈ (executeSubtask o w st).subtasks, s' ∈ w.subtasks ∨ s'.id = st.id := by
  intro s' hs'
  cases hcall : o.callResult st.id with
  | some r =>
    rw [executeSubtask_subtasks_success o w st r hcall, List.map_map] at hs'
    obtain ⟨s, hsmem, rfl⟩ := List.mem_map.mp hs'
    by_cases hb : (s.id == st.id) = true
    · right
      show (completeFn o st r (inProgressFn st s)).id = st.id
      rw [completeFn_id, inProgressFn_id]
      simpa using hb
    · left
      show completeFn o st r (inProgressFn st s) ∈ w.subtasks
      rw [inProgressFn_noeq st s hb, completeFn_noeq o st r s hb]
      exact hsmem
  | none =>
    rw [executeSubtask_subtasks_fail o w st hcall, List.map_map] at hs'
    obtain ⟨s, hsmem, rfl⟩ := List.mem_map.mp hs'
    by_cases hb : (s.id == st.id) = true
    · right
      show (failFn st (inProgressFn st s)).id = st.id
      rw [failFn_id, inProgressFn_id]
      simpa using hb
    · left
      show failFn st (inProgressFn st s) ∈ w.subtasks
      rw [inProgressFn_noeq st s hb, failFn_noeq st s hb]
      exact hsmem

/-- Executing a batch of subtasks with pairwise distinct ids, each
assigned at batch time, preserves the invariant. -/
theorem foldl_executeSubtask_taskInv (o : Oracle) (L : List SubtaskRow) (w : World)
    (hinv : TaskInv w)
    (hL : ∀ st ∈ L, ∀ s ∈ w.subtasks, s.id = st.id → s.status = SubtaskStatus.assigned)
    (hnd : (L.map (fun s => s.id)).Nodup) :
    TaskInv (L.foldl (executeSubtask o) w) := by
  induction L generalizing w with
  | nil => exact hinv
  | cons st L ih =>
    rw [List.foldl_cons]
    rw [List.map_cons, List.nodup_cons] at hnd
    refine ih _ (executeSubtask_taskInv o w st hinv (hL st (List.mem_cons_self st L))) ?_ hnd.2
    intro st' hst' s hs hsid
    rcases executeSubtask_mem_or o w st s hs with hmem | hid
    · exact hL st' (List.mem_cons_of_mem st hst') s hmem hsid
    · exact absurd (hid.symm.trans hsid ▸ List.mem_map_of_mem (fun s => s.id) hst') hnd.1

theorem deliverLoop_tasks (o : Oracle) (L : List MessageRow) (w : World) :
    (deliverLoop o L w).1.tasks = w.tasks := by
  induction L generalizing w with
  | nil => rfl
  | cons x L ih =>
    unfold deliverLoop
    split
    · rw [ih]
      rfl
    · rfl

theorem deliverLoop_subtasks (o : Oracle) (L : List MessageRow) (w : World) :
    (deliverLoop o L w).1.subtasks = w.subtasks := by
  induction L generalizing w with
  | nil => rfl
  | cons x L ih =>
    unfold deliverLoop
    split
    · rw [ih]
      rfl
    · rfl

theorem createTask_taskInv (w : World) (tid : Nat) (p : String) (now : Nat)
    (hinv : TaskInv w) : TaskInv (createTask w tid p now) := by
  intro t ht hcomp s hs hsid
  replace ht : t ∈ w.tasks ++
      [{ id := tid, prompt := p, status := .pending, createdAt := now }] := ht
  rcases List.mem_append.mp ht with h | h
  · exact hinv t h hcomp s hs hsid
  · rw [List.mem_singleton] at h
    rw [h] at hcomp
    simp at hcomp

theorem cancelTask_taskInv (w : World) (tid : Nat) (hinv : TaskInv w) :
    TaskInv (cancelTask w tid) := by
  unfold cancelTask
  refine updateTask_noncompleting_taskInv _ _ _ hinv ?_
  intro t
  by_cases hb : (t.status != TaskStatus.completed && t.status != TaskStatus.cancelled) = true
  · right
    show (if (t.status != TaskStatus.completed && t.status != TaskStatus.cancelled) = true
        then { t with status := TaskStatus.cancelled } else t).status ≠ TaskStatus.completed
    rw [if_pos hb]
    simp
  · left
    show (if (t.status != TaskStatus.completed && t.status != TaskStatus.cancelled) = true
        then { t with status := TaskStatus.cancelled } else t) = t
    rw [if_neg hb]

theorem planTaskLoop_shape (tid : Nat) (hubOf : String → Option String) (baseId : Nat)
    (L : List (Nat × PlanEntry)) (w : World) :
    (planTaskLoop tid hubOf baseId L w).1.tasks = w.tasks ∧
    ∃ new : List SubtaskRow,
      (planTaskLoop tid hubOf baseId L w).1.subtasks = w.subtasks ++ new ∧
      ∀ s ∈ new, s.taskId = tid ∧ s.status = SubtaskStatus.pending := by
  induction L generalizing w with
  | nil => exact ⟨rfl, [], (List.append_nil _).symm, by simp⟩
  | cons x L ih =>
    obtain ⟨i, e⟩ := x
    unfold planTaskLoop
    cases hga : getAgentByType w e.agent with
    | none => exact ⟨rfl, [], (List.append_nil _).symm, by simp⟩
    | some ag =>
      dsimp only
      obtain ⟨ht, new, hs, hnew⟩ := ih ((assignAgentToHub
        { w with subtasks := w.subtasks ++ [planRow tid baseId hubOf i e ag] }
        ag.id ((hubOf e.agent).getD "town_square")).1)
      refine ⟨?_, planRow tid baseId hubOf i e ag :: new, ?_, ?_⟩
      · rw [ht, assignAgentToHub_tasks]
      · rw [hs, assignAgentToHub_subtasks]
        simp
      · intro s hsmem
        rcases List.mem_cons.mp hsmem with h | h
        · rw [h]
          exact ⟨rfl, rfl⟩
        · exact hnew s h

theorem planTask_taskInv (w : World) (tid : Nat) (entries : List PlanEntry) (baseId : Nat)
    (hubOf : String → Option String)
    (hnotc : ∀ t ∈ w.tasks, t.id = tid → t.status ≠ TaskStatus.completed)
    (hinv : TaskInv w) : TaskInv (planTask w tid entries baseId hubOf) := by
  obtain ⟨ht, new, hs, hnew⟩ := planTaskLoop_shape tid hubOf baseId entries.enum w
  have hres : TaskInv (planTaskLoop tid hubOf baseId entries.enum w).1 := by
    intro t htm hcomp s hsm hsid
    rw [ht] at htm
    rw [hs] at hsm
    rcases List.mem_append.mp hsm with h | h
    · exact hinv t htm hcomp s h hsid
    · have h1 : t.id = tid := by
        rw [← hsid]
        exact (hnew s h).1
      exact absurd hcomp (hnotc t htm h1)
  unfold planTask
  rcases hloop : planTaskLoop tid hubOf baseId entries.enum w with ⟨w1, threw⟩
  rw [hloop] at hres
  cases threw with
  | false =>
    show TaskInv (updateTask w1 tid (fun t => { t with status := TaskStatus.in_progress }))
    refine updateTask_noncompleting_taskInv _ _ _ hres ?_
    intro t
    right
    show ({ t with status := TaskStatus.in_progress } : TaskRow).status ≠ TaskStatus.completed
    simp
  | true => exact hres

theorem processPendingTasks_taskInv (w : World) (hinv : TaskInv w) :
    TaskInv (processPendingTasks w) := by
  unfold processPendingTasks
  apply foldl_taskInv _ ?_ _ _ hinv
  intro w' t hinv'
  dsimp only
  have h1 : TaskInv (updateTask w' t.id (fun x => { x with status := TaskStatus.planning })) := by
    refine updateTask_noncompleting_taskInv _ _ _ hinv' ?_
    intro x
    right
    show ({ x with status := TaskStatus.planning } : TaskRow).status ≠ TaskStatus.completed
    simp
  cases hga : getAgentByType
      (updateTask w' t.id (fun x => { x with status := TaskStatus.planning })) "planner" with
  | none => exact h1
  | some planner =>
    exact TaskInv_of_eq _ _ (assignAgentToHub_tasks _ _ _) (assignAgentToHub_subtasks _ _ _) h1

theorem updateAgentPositions_taskInv (mo : MoveOracle) (w : World) (hinv : TaskInv w) :
    TaskInv (updateAgentPositions mo w) := by
  unfold updateAgentPositions
  apply foldl_taskInv _ ?_ _ _ hinv
  intro w' a hinv'
  dsimp only
  cases a.targetHub with
  | none => exact hinv'
  | some h =>
    dsimp only
    by_cases harr : mo.arrives a.id = true
    · rw [if_pos harr]
      exact TaskInv_of_eq _ _ (updateAgent_tasks _ _ _) (updateAgent_subtasks _ _ _) hinv'
    · rw [if_neg harr]
      exact TaskInv_of_eq _ _ (updateAgent_tasks _ _ _) (updateAgent_subtasks _ _ _) hinv'

theorem processMessages_taskInv (o : Oracle) (w : World) (hinv : TaskInv w) :
    TaskInv (processMessages o w).1 :=
  TaskInv_of_eq _ _ (deliverLoop_tasks o _ w) (deliverLoop_subtasks o _ w) hinv

theorem processSubtasks_taskInv (o : Oracle) (w : World)
    (hwf : (w.subtasks.map (fun s => s.id)).Nodup) (hinv : TaskInv w) :
    TaskInv (processSubtasks o w) := by
  unfold processSubtasks
  have hperm : List.Perm (readySubtasks w) (w.subtasks.filter (subtaskReady w)) :=
    List.perm_insertionSort seqLE _
  apply foldl_executeSubtask_taskInv o _ w hinv
  · intro st hst s hs hsid
    have hmem : st ∈ w.subtasks ∧ subtaskReady w st = true := by
      rw [hperm.mem_iff, List.mem_filter] at hst
      exact hst
    have hseq : s = st := by
      apply List.inj_on_of_nodup_map hwf hs hmem.1
      exact hsid
    rw [hseq]
    have h := hmem.2
    unfold subtaskReady at h
    have h2 := (Bool.and_eq_true _ _).mp h
    simpa using h2.1
  · have hsub : List.Sublist (w.subtasks.filter (subtaskReady w)) w.subtasks :=
      List.filter_sublist w.subtasks
    have hnd : ((w.subtasks.filter (subtaskReady w)).map (fun s => s.id)).Nodup :=
      List.Nodup.sublist (List.Sublist.map (fun s => s.id) hsub) hwf
    exact (hperm.map (fun s => s.id)).nodup_iff.mpr hnd

/-- One operation of the orchestration core or of its API surface.  The
decomposition step carries the requirement under which its one intended
call site runs (planning a task the intake phase just moved to planning):
the decomposed task is not completed. -/
inductive OrchStep : World → World → Prop
  | createT (w : World) (tid : Nat) (p : String) (now : Nat) :
      OrchStep w (createTask w tid p now)
  | cancelT (w : World) (tid : Nat) : OrchStep w (cancelTask w tid)
  | planT (w : World) (tid : Nat) (entries : List PlanEntry) (baseId : Nat)
      (hubOf : String → Option String)
      (hplanning : ∀ t ∈ w.tasks, t.id = tid → t.status ≠ TaskStatus.completed) :
      OrchStep w (planTask w tid entries baseId hubOf)
  | intake (w : World) : OrchStep w (processPendingTasks w)
  | movement (w : World) (mo : MoveOracle) : OrchStep w (updateAgentPositions mo w)
  | dispatch (w : World) (o : Oracle) : OrchStep w (processSubtasks o w)
  | messages (w : World) (o : Oracle) : OrchStep w (processMessages o w).1

/-- C4 as amended: the forward half of the claim is an invariant — a
completed task owns only completed subtasks, and every operation of the
orchestration core (intake, movement, dispatch, message delivery,
decomposition) and of the API surface (create, cancel) preserves it on
worlds with distinct subtask ids.  The converse half of the claim is
false: a task can be in a non-completed status while all (possibly zero)
of its subtasks are completed, as the counterexample shows on a freshly
created task. -/
theorem C4_completed_task_invariant (w w' : World)
    (hwf : (w.subtasks.map (fun s => s.id)).Nodup)
    (hinv : TaskInv w) (hstep : OrchStep w w') : TaskInv w' := by
  cases hstep with
  | createT tid p now => exact createTask_taskInv w tid p now hinv
  | cancelT tid => exact cancelTask_taskInv w tid hinv
  | planT tid entries baseId hubOf hplanning =>
      exact planTask_taskInv w tid entries baseId hubOf hplanning hinv
  | intake => exact processPendingTasks_taskInv w hinv
  | movement mo => exact updateAgentPositions_taskInv mo w hinv
  | dispatch o => exact processSubtasks_taskInv o w hwf hinv
  | messages o => exact processMessages_taskInv o w hinv

/-- The empty bootstrap world. -/
def emptyWorld : World :=
  { tasks := [], subtasks := [], agents := [], messages := [], hubs := [], nextMessageId := 0 }

/-- Counterexample to C4 as stated: a freshly created task is pending
while every one of its (zero) subtasks is completed, so completion of all
owned subtasks does not imply a completed task status. -/
theorem C4_counterexample :
    ¬ taskSubtaskIff (createTask emptyWorld 1 "build a page" 0) := by decide

/-- World of the C4 witness: a completed task with a completed subtask
and an in-progress task whose subtask is ready for dispatch. -/
def wC4 : World :=
  { tasks := [{ id := 40, prompt := "p", status := .completed, createdAt := 0 },
              { id := 41, prompt := "q", status := .in_progress, createdAt := 1 }],
    subtasks := [{ id := 400, taskId := 40, agentId := 1, agentType := "coder",
                   description := "d", hubId := "coding_hub", sequence := 0,
                   status := .completed, output := some "o" },
                 { id := 401, taskId := 41, agentId := 1, agentType := "coder",
                   description := "e", hubId := "coding_hub", sequence := 0,
                   status := .assigned, output := none }],
    agents := [{ id := 1, type := "coder", status := .idle, currentHub := some "coding_hub",
                 targetHub := none, doing := none, pos := (0, 0) }],
    messages := [], hubs := [], nextMessageId := 0 }

/-- Oracle of the C4 witness. -/
def oC4 : Oracle :=
  { callResult := fun _ => some "done", jsonParse := fun _ => none, chatCallOk := fun _ => true }

/-- Witness for C4 as amended: a concrete dispatch step from a world
satisfying the invariant lands in a world satisfying it. -/
theorem C4_completed_task_invariant_witness :
    (wC4.subtasks.map (fun s => s.id)).Nodup ∧ TaskInv wC4 ∧
    TaskInv (processSubtasks oC4 wC4) :=
  ⟨by decide, by decide,
   C4_completed_task_invariant wC4 (processSubtasks oC4 wC4) (by decide) (by decide)
     (OrchStep.dispatch wC4 oC4)⟩

end ElizaTown
